import Mathlib

/-!
Formal model of the KalpaSETU sensor-gateway core: the radio wire formats,
the priority-queue processor, the alerting engine, the store-and-forward
cloud egress, the archiver, and the shared SPI-bus arbiter.  Each definition
is a shallow embedding of the corresponding Python source
(`processing_thread`, `communications_thread`, `archive`, `spi_lock`,
`worker_threads`).
-/

namespace KalpaSETU

/-! ### Byte-level wire formats

`struct.unpack` with a little-endian format string requires the buffer
length to equal the format's size exactly and never fails otherwise.
Bytes are modelled as `Fin 256`. -/

abbrev Byte := Fin 256

/-- Little-endian unsigned 16-bit field (`H` / `h` low half). -/
def leU16 (b0 b1 : Byte) : Nat := b0.val + 256 * b1.val

/-- Little-endian unsigned 32-bit field (`I`). -/
def leU32 (b0 b1 b2 b3 : Byte) : Nat :=
  b0.val + 256 * b1.val + 65536 * b2.val + 16777216 * b3.val

/-- Little-endian signed 16-bit field (`h`): two's complement decode. -/
def leI16 (b0 b1 : Byte) : Int :=
  if leU16 b0 b1 < 32768 then (leU16 b0 b1 : Int)
  else (leU16 b0 b1 : Int) - 65536

/-- The fields bound from a primary-radio (LoRa) packet by
`struct.unpack('<H B III f f B', packet)`: only the node id and the three
cycle-counter bins are used downstream (the tag byte, the two floats and
the trailing byte are ignored by the processor). -/
structure LoRaData where
  node_id : Nat
  tag : Nat
  bin1 : Nat
  bin2 : Nat
  bin3 : Nat
  deriving Repr, DecidableEq

/-- `struct.calcsize('<H B III f f B')` = 2 + 1 + 4 + 4 + 4 + 4 + 4 + 1. -/
def loraFormatSize : Nat := 24

/-- `struct.unpack('<H B III f f B', packet)` in
`DataProcessingThread._process_lora_packet`: succeeds exactly on buffers of
the format's size, reading each field at its little-endian offset. -/
def unpackLoRa (p : List Byte) : Option LoRaData :=
  if p.length = loraFormatSize then
    some { node_id := leU16 (p.getD 0 0) (p.getD 1 0)
           tag := (p.getD 2 0).val
           bin1 := leU32 (p.getD 3 0) (p.getD 4 0) (p.getD 5 0) (p.getD 6 0)
           bin2 := leU32 (p.getD 7 0) (p.getD 8 0) (p.getD 9 0) (p.getD 10 0)
           bin3 := leU32 (p.getD 11 0) (p.getD 12 0) (p.getD 13 0) (p.getD 14 0) }
  else none

/-! ### Durable store -/

/-- One row of the `fatigue_log` table (`db_setup.py`). Timestamps are
UTC ISO-8601 strings whose lexicographic order agrees with time order;
they are modelled as naturals. -/
structure FatigueRow where
  log_id : Nat
  timestamp : Nat
  node_id : Nat
  bin_1_cycles : Nat
  bin_2_cycles : Nat
  bin_3_cycles : Nat
  sent_to_cloud : Nat
  deriving Repr, DecidableEq

/-- The `fatigue_log` table: rows in rowid (insertion) order plus the
autoincrement counter. -/
structure FatigueDB where
  rows : List FatigueRow
  next_id : Nat
  deriving Repr, DecidableEq

/-- One row of the `environment_log` table. -/
structure EnvRow where
  log_id : Nat
  received_at : Nat
  node_id : Nat
  temperature_c : ℚ
  humidity_rh : ℚ
  deriving Repr, DecidableEq

/-- The `environment_log` table. -/
structure EnvDB where
  rows : List EnvRow
  next_id : Nat
  deriving Repr, DecidableEq

/-- Outcome of an INSERT + COMMIT on the store: `sqlite3.Error` is caught
and answered with a rollback, so the environment only decides success or
failure of the transaction. -/
inductive DbResult
  | ok
  | err
  deriving Repr, DecidableEq

/-! ### Alerting engine (`DataProcessingThread._check_alerting_rules`) -/

/-- One configured alert rule, as loaded from `rules.yaml`. -/
structure Rule where
  node_id : Nat
  field_to_monitor : String
  threshold : Nat
  alert_message : String
  deriving Repr, DecidableEq

/-- The bounded alert queue; `put(msg, block=False)` raises `queue.Full`
at capacity, which the caller catches and logs (drop-on-full). -/
structure AlertQueue where
  msgs : List String
  cap : Nat
  deriving Repr, DecidableEq

/-- Non-blocking put with drop-on-full. -/
def putNowait (q : AlertQueue) (m : String) : AlertQueue :=
  if q.msgs.length < q.cap then { q with msgs := q.msgs ++ [m] } else q

/-- `data.get(field)` for the dict
`{'bin_1_cycles': bin1, 'bin_2_cycles': bin2, 'bin_3_cycles': bin3}`. -/
def binLookup (d : LoRaData) (field : String) : Option Nat :=
  if field = "bin_1_cycles" then some d.bin1
  else if field = "bin_2_cycles" then some d.bin2
  else if field = "bin_3_cycles" then some d.bin3
  else none

/-- `rule['alert_message'].format(node=..., value=..., threshold=...)`. -/
def renderAlert (template : String) (node value threshold : Nat) : String :=
  ((template.replace "{node}" (toString node)).replace "{value}"
    (toString value)).replace "{threshold}" (toString threshold)

/-- The body of the rule loop: node match, field lookup, strict
greater-than comparison, render and non-blocking enqueue. -/
def alertStep (node : Nat) (d : LoRaData) (q : AlertQueue) (r : Rule) : AlertQueue :=
  if r.node_id = node then
    match binLookup d r.field_to_monitor with
    | some v =>
        if r.threshold < v then
          putNowait q (renderAlert r.alert_message node v r.threshold)
        else q
    | none => q
  else q

/-- `_check_alerting_rules`: fold the rule list over the alert queue. -/
def checkAlertingRules (rules : List Rule) (node : Nat) (d : LoRaData)
    (q : AlertQueue) : AlertQueue :=
  rules.foldl (alertStep node d) q

/-- Whether a rule fires for this packet: node match and the monitored
field strictly above the threshold. -/
def ruleFires (node : Nat) (d : LoRaData) (r : Rule) : Bool :=
  if r.node_id = node then
    match binLookup d r.field_to_monitor with
    | some v => decide (r.threshold < v)
    | none => false
  else false

/-- The message a firing rule renders. -/
def renderFor (node : Nat) (d : LoRaData) (r : Rule) : String :=
  match binLookup d r.field_to_monitor with
  | some v => renderAlert r.alert_message node v r.threshold
  | none => ""

/-! ### Primary and scout packet handling -/

/-- The INSERT into `fatigue_log` performed by `_process_lora_packet`:
server-generated rowid, ingestion timestamp, `sent_to_cloud = 0`. -/
def insertFatigue (db : FatigueDB) (now : Nat) (d : LoRaData) : FatigueDB :=
  { rows := db.rows ++
      [{ log_id := db.next_id, timestamp := now, node_id := d.node_id,
         bin_1_cycles := d.bin1, bin_2_cycles := d.bin2,
         bin_3_cycles := d.bin3, sent_to_cloud := 0 }],
    next_id := db.next_id + 1 }

/-- `DataProcessingThread._process_lora_packet`: unpack (discard on
`struct.error`), insert + commit (rollback and return on `sqlite3.Error`,
skipping rule evaluation), then evaluate the alert rules. -/
def processLoraPacket (rules : List Rule) (dbres : DbResult) (now : Nat)
    (packet : List Byte) (db : FatigueDB) (q : AlertQueue) :
    FatigueDB × AlertQueue :=
  match unpackLoRa packet with
  | none => (db, q)
  | some d =>
      match dbres with
      | .err => (db, q)
      | .ok => (insertFatigue db now d, checkAlertingRules rules d.node_id d q)

/-- `struct.unpack('<BhH', payload)` for the 5-byte scout packet:
unsigned byte node id, signed 16-bit scaled temperature, unsigned 16-bit
scaled humidity, all little-endian. -/
def unpackNrf (p : List Byte) : Option (Nat × Int × Nat) :=
  if p.length = 5 then
    some ((p.getD 0 0).val, leI16 (p.getD 1 0) (p.getD 2 0),
          leU16 (p.getD 3 0) (p.getD 4 0))
  else none

/-- `DataProcessingThread._process_nrf_packet`: explicit length-5 check
(discard with a warning otherwise), unpack, scale by 1/100, insert one
`environment_log` row (rollback on `sqlite3.Error`). -/
def processNrfPacket (dbres : DbResult) (now : Nat) (payload : List Byte)
    (db : EnvDB) : EnvDB :=
  if payload.length ≠ 5 then db
  else
    match unpackNrf payload with
    | none => db
    | some (node, tRaw, hRaw) =>
        match dbres with
        | .err => db
        | .ok =>
            { rows := db.rows ++
                [{ log_id := db.next_id, received_at := now, node_id := node,
                   temperature_c := (tRaw : ℚ) / 100,
                   humidity_rh := (hRaw : ℚ) / 100 }],
              next_id := db.next_id + 1 }

/-- Draining a sequence of high-priority items: each item carries the
packet bytes and the store's answer to its transaction. -/
def processHighItems (rules : List Rule) (now : Nat) :
    List (List Byte × DbResult) → FatigueDB × AlertQueue → FatigueDB × AlertQueue
  | [], s => s
  | (p, r) :: rest, s =>
      processHighItems rules now rest (processLoraPacket rules r now p s.1 s.2)

/-! ### The processor loop (`DataProcessingThread.run`)

The loop alternates two inner `while` loops: one pops the high-priority
queue until it reports empty, the other then pops the low-priority queue
until it reports empty.  Crucially, the low drain does **not** re-check
the high queue between items.  The model makes that control state
explicit (`drainingHigh` / `drainingLow`); one `schedRun` step first
appends the packets arriving at that instant to the queue tails, then
performs one loop action. -/

inductive SchedMode
  | drainingHigh
  | drainingLow
  deriving Repr, DecidableEq

structure SchedState where
  mode : SchedMode
  hq : List Nat
  lq : List Nat
  deriving Repr, DecidableEq

/-- A processed item, tagged with the queue it came from. -/
inductive SchedEv
  | hi (p : Nat)
  | lo (p : Nat)
  deriving Repr, DecidableEq

/-- Inject the packets arriving at one instant at the back of each queue. -/
def enqueueArrivals (a : List Nat × List Nat) (s : SchedState) : SchedState :=
  ⟨s.mode, s.hq ++ a.1, s.lq ++ a.2⟩

/-- The processing loop, driven by an arrival schedule `arr` (packets
arriving at each instant) for `fuel` steps.  In `drainingHigh` the loop
pops the high queue until empty, then switches to the low drain; in
`drainingLow` it pops the low queue until empty — without looking at the
high queue — and only then returns to the iteration boundary. -/
def schedRun (arr : Nat → List Nat × List Nat) :
    Nat → Nat → SchedState → List SchedEv
  | 0, _, _ => []
  | fuel + 1, t, s =>
      match enqueueArrivals (arr t) s with
      | ⟨.drainingHigh, p :: hs, lq⟩ =>
          .hi p :: schedRun arr fuel (t + 1) ⟨.drainingHigh, hs, lq⟩
      | ⟨.drainingHigh, [], lq⟩ =>
          schedRun arr fuel (t + 1) ⟨.drainingLow, [], lq⟩
      | ⟨.drainingLow, hq, p :: ls⟩ =>
          .lo p :: schedRun arr fuel (t + 1) ⟨.drainingLow, hq, ls⟩
      | ⟨.drainingLow, hq, []⟩ =>
          schedRun arr fuel (t + 1) ⟨.drainingHigh, hq, []⟩

/-- The concrete arrival schedule refuting the mid-drain service order:
two low packets queued at instant 0, one high packet arriving at
instant 2, while low packet 8 is still queued. -/
def arrMidDrain : Nat → List Nat × List Nat
  | 0 => ([], [7, 8])
  | 2 => ([9], [])
  | _ => ([], [])

/-! ### Egress (`CommunicationsThread`) -/

/-- The modem environment one HTTP POST attempt observes: network
registration (`AT+CREG?` answering `0,1` or `0,5`), the OK after the
payload write, whether `AT+HTTPACTION=1` answered within its timeout,
and the text of that answer. -/
structure ModemEnv where
  creg_registered : Bool
  data_ack : Bool
  action_ok : Bool
  action_response : String
  deriving Repr, DecidableEq

/-- `pat in hay` on strings (Python's containment test). -/
def strHasSub (hay pat : String) : Bool :=
  (List.range (hay.toList.length + 1)).any
    (fun i => (hay.toList.drop i).take pat.toList.length == pat.toList)

/-- `CommunicationsThread._http_post_payload`: fails unless registered,
fails without the post-payload OK, and accepts exactly a `+HTTPACTION`
answer that arrived in time and carries `1,200` (HTTP 200). -/
def httpPostPayload (m : ModemEnv) : Bool :=
  if !m.creg_registered then false
  else if !m.data_ack then false
  else m.action_ok && strHasSub m.action_response "1,200"

/-- `SELECT ... FROM fatigue_log WHERE sent_to_cloud = 0 LIMIT 50`,
scanning the table in rowid order. -/
def selectUnsent (db : List FatigueRow) : List FatigueRow :=
  (db.filter (fun r => r.sent_to_cloud == 0)).take 50

inductive UploadOutcome
  | notDue
  | skipped
  | failed
  | succeeded
  deriving Repr, DecidableEq

/-- `CommunicationsThread.forward_data_to_cloud`: fetch the unsent batch,
skip when empty, POST, and only on success run the single
`UPDATE fatigue_log SET sent_to_cloud = 1 WHERE log_id IN (batch)`
and commit. -/
def forwardDataToCloud (m : ModemEnv) (db : List FatigueRow) :
    List FatigueRow × UploadOutcome :=
  let records := selectUnsent db
  if records.isEmpty then (db, .skipped)
  else
    let ids := records.map (fun r => r.log_id)
    if httpPostPayload m then
      (db.map (fun r => if ids.contains r.log_id then { r with sent_to_cloud := 1 } else r),
       .succeeded)
    else (db, .failed)

/-- `time.time() - last_cloud_upload_time > 900` (15 minutes). -/
def cloudDue (now last : Int) : Bool := 900 < now - last

structure CommState where
  lastUpload : Int
  db : List FatigueRow
  deriving Repr, DecidableEq

/-- The periodic cloud-forwarding tail of one `CommunicationsThread.run`
iteration: when 15 minutes have elapsed, forward and record the time the
upload finished (`after`); otherwise leave everything untouched. -/
def commCloudStep (m : ModemEnv) (now after : Int) (st : CommState) :
    CommState × UploadOutcome :=
  if cloudDue now st.lastUpload then
    let res := forwardDataToCloud m st.db
    ({ lastUpload := after, db := res.1 }, res.2)
  else (st, .notDue)

/-! ### Archiver (`archive.archive_and_purge`) -/

/-- The externally visible effects of one archiver run, in order. -/
inductive ArchiveEffect
  | writeArchive (rows : List FatigueRow)
  | purgeOld
  deriving Repr, DecidableEq

/-- `archive_and_purge` with cutoff timestamp already computed
(`now_utc - threshold` days): select rows strictly older than the cutoff;
if none, stop; otherwise write them all to the compressed archive file
and only then delete the rows matching the same predicate in one
transaction.  Returns (remaining table, archived rows, effect order). -/
def archiveAndPurge (cutoff : Nat) (db : List FatigueRow) :
    List FatigueRow × List FatigueRow × List ArchiveEffect :=
  let records := db.filter (fun r => r.timestamp < cutoff)
  if records.isEmpty then (db, [], [])
  else
    (db.filter (fun r => !(r.timestamp < cutoff : Bool)), records,
     [.writeArchive records, .purgeOld])

/-! ### Bus arbiter (`spi_lock.SPILock._SPIDevice`) -/

structure BusState where
  lockHeld : Bool
  deviceOpen : Bool
  deriving Repr, DecidableEq

inductive EnterOutcome
  | handle
  | openError
  deriving Repr, DecidableEq

/-- `__enter__`: acquire the mutex, then open the device; if the open
fails, release the mutex before the exception propagates. -/
def spiEnter (openOk : Bool) (s : BusState) : BusState × EnterOutcome :=
  let locked : BusState := { s with lockHeld := true }
  if openOk then ({ locked with deviceOpen := true }, .handle)
  else ({ locked with lockHeld := false }, .openError)

/-- `__exit__`: close the device (failure only logged), then release the
mutex in the `finally` block in every case. -/
def spiExit (closeOk : Bool) (s : BusState) : BusState :=
  let closed := if closeOk then { s with deviceOpen := false } else s
  { closed with lockHeld := false }

inductive ScopeOutcome
  | completed
  | bodyError
  | openFailed
  deriving Repr, DecidableEq

/-- A full `with spi_lock.acquire(...)` scope: on open failure the error
propagates with the lock already released; otherwise the body runs (it
may raise) and `__exit__` always runs afterwards. -/
def withBus (openOk bodyOk closeOk : Bool) (s : BusState) :
    BusState × ScopeOutcome :=
  match spiEnter openOk s with
  | (s1, .openError) => (s1, .openFailed)
  | (s1, .handle) =>
      (spiExit closeOk s1, if bodyOk then .completed else .bodyError)

/-- The sequence of actions a scope attempts: the mutex acquisition, the
device open, the body, the device close and the mutex release; on open
failure the body and close never run. -/
inductive BusAct
  | acquireLock
  | openDev (ok : Bool)
  | runBody
  | closeDev
  | releaseLock
  deriving Repr, DecidableEq

def withBusActs (openOk : Bool) : List BusAct :=
  if openOk then
    [.acquireLock, .openDev true, .runBody, .closeDev, .releaseLock]
  else
    [.acquireLock, .openDev false, .releaseLock]

/-! ### Radio ingestors (`worker_threads`)

The event trace of one signalled iteration of each worker's `run` loop.
Everything between the bus acquisition and the bus release happens
inside the `with self.spi_lock.acquire(...)` block — including the
`data_queue.put`. -/

inductive RadioEv
  | acquireBus
  | setupRadio (ok : Bool)
  | readPacket
  | enqueuePacket
  | dropPacket
  | sleepRetry
  | rearmRx
  | releaseBus
  deriving Repr, DecidableEq

/-- The body of `LoRaWorkerThread.run`'s `with` block for one signalled
wake: optional setup (a failure sleeps and `continue`s out of the
scope), then on a pending RX-done interrupt a read followed by the
non-blocking enqueue (drop on full), then re-arming continuous receive. -/
def loraScopeBody (needSetup setupOk rxDone qFull : Bool) : List RadioEv :=
  let setupEvs := if needSetup then [RadioEv.setupRadio setupOk] else []
  let nowSetup := if needSetup then setupOk else true
  if nowSetup = false then setupEvs ++ [RadioEv.sleepRetry]
  else
    setupEvs ++
      (if rxDone then
        [RadioEv.readPacket,
         if qFull then RadioEv.dropPacket else RadioEv.enqueuePacket]
       else []) ++
      [RadioEv.rearmRx]

/-- One signalled LoRa iteration: the `with` scope acquires the bus on
entry and releases it on every exit path. -/
def loraIterTrace (needSetup setupOk rxDone qFull : Bool) : List RadioEv :=
  RadioEv.acquireBus :: loraScopeBody needSetup setupOk rxDone qFull ++
    [RadioEv.releaseBus]

/-- The body of `nRFWorkerThread.run`'s `with` block: optional setup,
then a drain of every available packet, each read followed by the
non-blocking enqueue (drop on full) — all still under the bus lock.
`qFulls` lists, per available packet, whether the queue was full. -/
def nrfScopeBody (needSetup setupOk : Bool) (qFulls : List Bool) : List RadioEv :=
  let setupEvs := if needSetup then [RadioEv.setupRadio setupOk] else []
  let nowSetup := if needSetup then setupOk else true
  if nowSetup = false then setupEvs ++ [RadioEv.sleepRetry]
  else
    setupEvs ++
      (qFulls.map (fun f =>
        [RadioEv.readPacket,
         if f then RadioEv.dropPacket else RadioEv.enqueuePacket])).flatten

/-- One signalled nRF iteration. -/
def nrfIterTrace (needSetup setupOk : Bool) (qFulls : List Bool) : List RadioEv :=
  RadioEv.acquireBus :: nrfScopeBody needSetup setupOk qFulls ++
    [RadioEv.releaseBus]

/-- Tracking bus exclusivity along a trace. -/
def busStep (h : Bool) (e : RadioEv) : Bool :=
  match e with
  | .acquireBus => true
  | .releaseBus => false
  | _ => h

/-- Whether the worker holds the bus after the given events. -/
def busHeldAfter (evs : List RadioEv) : Bool := evs.foldl busStep false

/-! ## Theorems -/

/-- C5 (confirmed): a bus handle is returned exactly when the device open
succeeded, and only while exclusivity is held; on device-open failure the
lock is released before the error propagates; on every exit path of the
scope — normal completion, body failure, close failure — the lock ends
released; the mutex release is the last action of the scope and happens
exactly once, after the device close on the handle path. -/
theorem C5_bus_exclusivity (openOk bodyOk closeOk : Bool) (s : BusState) :
    ((spiEnter openOk s).2 = EnterOutcome.handle ↔ openOk = true) ∧
    ((spiEnter openOk s).2 = EnterOutcome.handle →
      (spiEnter openOk s).1.lockHeld = true ∧
      (spiEnter openOk s).1.deviceOpen = true) ∧
    ((spiEnter openOk s).2 = EnterOutcome.openError →
      (spiEnter openOk s).1.lockHeld = false) ∧
    (withBus openOk bodyOk closeOk s).1.lockHeld = false ∧
    (withBusActs openOk).getLast? = some BusAct.releaseLock ∧
    (withBusActs openOk).count BusAct.releaseLock = 1 ∧
    (BusAct.closeDev ∈ withBusActs openOk →
      withBusActs openOk = [BusAct.acquireLock, BusAct.openDev true,
        BusAct.runBody, BusAct.closeDev, BusAct.releaseLock]) := by
  cases openOk <;> cases bodyOk <;> cases closeOk <;>
    refine ⟨?_, ?_, ?_, ?_, ?_, ?_, ?_⟩ <;>
      simp [spiEnter, spiExit, withBus, withBusActs]

/-- A 20-byte packet (the length the claim asserts) and the spec's own
end-to-end scenario packet, which is 24 bytes. -/
def packet20zeros : List Byte := List.replicate 20 0

def packetScenario1 : List Byte :=
  [1, 0, 255, 5, 0, 0, 0, 10, 0, 0, 0, 20, 0, 0, 0, 0, 0, 128, 63, 0, 0, 0, 64, 0]

/-- C3 counterexample: the primary-packet record is 24 bytes, not 20.
A 20-byte packet fails `struct.unpack('<H B III f f B', ...)` (whose size
is 2+1+4+4+4+4+4+1 = 24) and is discarded with no fatigue row written,
refuting "for every primary packet of exactly 20 bytes the processor
deserializes it and handles it"; the spec's own scenario-1 packet is
24 bytes and decodes to node 1 with bins 5/10/20. -/
theorem C3_counterexample :
    packet20zeros.length = 20 ∧
    unpackLoRa packet20zeros = none ∧
    processLoraPacket [] DbResult.ok 0 packet20zeros ⟨[], 1⟩ ⟨[], 50⟩
      = (⟨[], 1⟩, ⟨[], 50⟩) ∧
    packetScenario1.length = 24 ∧
    unpackLoRa packetScenario1 = some ⟨1, 255, 5, 10, 20⟩ := by
  decide

/-- C3 (amended): a primary-radio packet is a 24-byte little-endian record
(u16 node id, u8 reserved, three u32 bins, two f32, u8); every primary
packet of exactly 24 bytes is deserialized (node id at offset 0, bins at
offsets 3, 7 and 11) and, when the transaction commits, appended as one
fatigue row with `sent_to_cloud = 0`; every packet of any other length is
discarded with a logged error, writing no row and touching no state. -/
theorem C3_amended_wire_format (rules : List Rule) (dbres : DbResult) (now : Nat)
    (packet : List Byte) (db : FatigueDB) (q : AlertQueue) :
    (packet.length ≠ 24 →
      processLoraPacket rules dbres now packet db q = (db, q)) ∧
    (packet.length = 24 →
      unpackLoRa packet = some
        { node_id := leU16 (packet.getD 0 0) (packet.getD 1 0),
          tag := (packet.getD 2 0).val,
          bin1 := leU32 (packet.getD 3 0) (packet.getD 4 0) (packet.getD 5 0) (packet.getD 6 0),
          bin2 := leU32 (packet.getD 7 0) (packet.getD 8 0) (packet.getD 9 0) (packet.getD 10 0),
          bin3 := leU32 (packet.getD 11 0) (packet.getD 12 0) (packet.getD 13 0) (packet.getD 14 0) } ∧
      (processLoraPacket rules DbResult.ok now packet db q).1.rows
        = db.rows ++
          [{ log_id := db.next_id, timestamp := now,
             node_id := leU16 (packet.getD 0 0) (packet.getD 1 0),
             bin_1_cycles := leU32 (packet.getD 3 0) (packet.getD 4 0) (packet.getD 5 0) (packet.getD 6 0),
             bin_2_cycles := leU32 (packet.getD 7 0) (packet.getD 8 0) (packet.getD 9 0) (packet.getD 10 0),
             bin_3_cycles := leU32 (packet.getD 11 0) (packet.getD 12 0) (packet.getD 13 0) (packet.getD 14 0),
             sent_to_cloud := 0 }]) := by
  constructor
  · intro h
    simp [processLoraPacket, unpackLoRa, loraFormatSize, h]
  · intro h
    have hu : unpackLoRa packet = some
        { node_id := leU16 (packet.getD 0 0) (packet.getD 1 0),
          tag := (packet.getD 2 0).val,
          bin1 := leU32 (packet.getD 3 0) (packet.getD 4 0) (packet.getD 5 0) (packet.getD 6 0),
          bin2 := leU32 (packet.getD 7 0) (packet.getD 8 0) (packet.getD 9 0) (packet.getD 10 0),
          bin3 := leU32 (packet.getD 11 0) (packet.getD 12 0) (packet.getD 13 0) (packet.getD 14 0) } := by
      simp [unpackLoRa, loraFormatSize, h]
    exact ⟨hu, by simp [processLoraPacket, hu, insertFatigue]⟩

/-- C6 (confirmed): every 5-byte scout packet is decoded little-endian as
(u8 node id, signed i16 scaled temperature, unsigned u16 scaled humidity),
both readings are scaled by 1/100, and exactly one environment row with
those values is appended; the decoded temperature lies in the signed
16-bit range and the humidity in the unsigned 16-bit range; every scout
packet of any other length is discarded with a logged warning and no row
is written. -/
theorem C6_scout_packet (dbres : DbResult) (now : Nat) (payload : List Byte)
    (db : EnvDB) :
    (payload.length ≠ 5 → processNrfPacket dbres now payload db = db) ∧
    (payload.length = 5 →
      unpackNrf payload = some ((payload.getD 0 0).val,
        leI16 (payload.getD 1 0) (payload.getD 2 0),
        leU16 (payload.getD 3 0) (payload.getD 4 0)) ∧
      (processNrfPacket DbResult.ok now payload db).rows
        = db.rows ++
          [{ log_id := db.next_id, received_at := now,
             node_id := (payload.getD 0 0).val,
             temperature_c := (leI16 (payload.getD 1 0) (payload.getD 2 0) : ℚ) / 100,
             humidity_rh := (leU16 (payload.getD 3 0) (payload.getD 4 0) : ℚ) / 100 }] ∧
      -32768 ≤ leI16 (payload.getD 1 0) (payload.getD 2 0) ∧
      leI16 (payload.getD 1 0) (payload.getD 2 0) < 32768 ∧
      leU16 (payload.getD 3 0) (payload.getD 4 0) < 65536) := by
  constructor
  · intro h
    simp [processNrfPacket, h]
  · intro h
    have hu : unpackNrf payload = some ((payload.getD 0 0).val,
        leI16 (payload.getD 1 0) (payload.getD 2 0),
        leU16 (payload.getD 3 0) (payload.getD 4 0)) := by
      simp [unpackNrf, h]
    have h1 : (payload.getD 1 0).val < 256 := (payload.getD 1 0).isLt
    have h2 : (payload.getD 2 0).val < 256 := (payload.getD 2 0).isLt
    have h3 : (payload.getD 3 0).val < 256 := (payload.getD 3 0).isLt
    have h4 : (payload.getD 4 0).val < 256 := (payload.getD 4 0).isLt
    refine ⟨hu, ?_, ?_, ?_, ?_⟩
    · simp [processNrfPacket, h, hu]
    · unfold leI16 leU16
      split <;> push_cast <;> omega
    · unfold leI16 leU16
      split <;> push_cast <;> omega
    · unfold leU16
      omega

/-- A transaction the store rejects leaves the processor state untouched:
rollback restores the table and the alert rules are never evaluated. -/
theorem processLoraPacket_err (rules : List Rule) (now : Nat)
    (packet : List Byte) (db : FatigueDB) (q : AlertQueue) :
    processLoraPacket rules DbResult.err now packet db q = (db, q) := by
  cases h : unpackLoRa packet <;> simp [processLoraPacket, h]

/-- C8 (confirmed): when the insert or commit of a fatigue row fails, the
processor rolls the transaction back (table unchanged), evaluates no alert
rule for that packet (alert queue unchanged), and continues with the rest
of the queue: a drain containing the failing item produces exactly the
state of the same drain with the failing item skipped — no database error
terminates the processor. -/
theorem C8_store_failure_skips_item (rules : List Rule) (now : Nat)
    (packet : List Byte) (db : FatigueDB) (q : AlertQueue)
    (pre post : List (List Byte × DbResult)) :
    processLoraPacket rules DbResult.err now packet db q = (db, q) ∧
    processHighItems rules now (pre ++ (packet, DbResult.err) :: post) (db, q)
      = processHighItems rules now (pre ++ post) (db, q) := by
  refine ⟨processLoraPacket_err rules now packet db q, ?_⟩
  induction pre generalizing db q with
  | nil =>
      simp [processHighItems, processLoraPacket_err]
  | cons item rest ih =>
      simp only [List.cons_append, processHighItems]
      exact ih (processLoraPacket rules item.2 now item.1 db q).1
        (processLoraPacket rules item.2 now item.1 db q).2

/-- C4 (confirmed): an archiver run with cutoff `c` archives exactly the
rows with timestamp strictly below `c`; the remaining table is exactly the
rows at or above `c` (those are neither archived nor deleted); archived
and remaining rows together are a permutation of the table before the run
(no loss); the effect order is either empty (nothing old enough, no
deletion) or the full archive write strictly before the one-transaction
purge of the same predicate. -/
theorem C4_archive_before_purge (cutoff : Nat) (db : List FatigueRow) :
    (archiveAndPurge cutoff db).2.1
      = db.filter (fun r => decide (r.timestamp < cutoff)) ∧
    (archiveAndPurge cutoff db).1
      = db.filter (fun r => !decide (r.timestamp < cutoff)) ∧
    ((archiveAndPurge cutoff db).2.1 ++ (archiveAndPurge cutoff db).1).Perm db ∧
    (∀ r ∈ (archiveAndPurge cutoff db).2.1, r.timestamp < cutoff) ∧
    (∀ r ∈ db, cutoff ≤ r.timestamp → r ∈ (archiveAndPurge cutoff db).1) ∧
    ((archiveAndPurge cutoff db).2.2 = [] ∨
      (archiveAndPurge cutoff db).2.2
        = [ArchiveEffect.writeArchive (archiveAndPurge cutoff db).2.1,
           ArchiveEffect.purgeOld]) ∧
    ((archiveAndPurge cutoff db).2.2 = [] → (archiveAndPurge cutoff db).1 = db) := by
  by_cases hemp : (db.filter (fun r => decide (r.timestamp < cutoff))).isEmpty
  · have hnil : db.filter (fun r => decide (r.timestamp < cutoff)) = [] :=
      List.isEmpty_iff.mp hemp
    have hall : ∀ r ∈ db, ¬(decide (r.timestamp < cutoff) = true) := by
      intro r hr
      exact fun hd => (List.filter_eq_nil_iff.mp hnil r hr) hd
    have hself : db.filter (fun r => !decide (r.timestamp < cutoff)) = db := by
      refine List.filter_eq_self.mpr ?_
      intro r hr
      have hge : ¬(r.timestamp < cutoff) :=
        fun hlt => hall r hr (decide_eq_true hlt)
      simp [decide_eq_false hge]
    have harch : archiveAndPurge cutoff db = (db, [], []) := by
      simp [archiveAndPurge, hemp]
    rw [harch]
    refine ⟨hnil.symm, hself.symm, by simp, by simp, ?_, Or.inl rfl, fun _ => rfl⟩
    intro r hr _
    exact hr
  · have harch : archiveAndPurge cutoff db
        = (db.filter (fun r => !decide (r.timestamp < cutoff)),
           db.filter (fun r => decide (r.timestamp < cutoff)),
           [ArchiveEffect.writeArchive
              (db.filter (fun r => decide (r.timestamp < cutoff))),
            ArchiveEffect.purgeOld]) := by
      simp [archiveAndPurge, hemp]
    rw [harch]
    refine ⟨rfl, rfl, List.filter_append_perm _ db, ?_, ?_, Or.inr rfl, ?_⟩
    · intro r hr
      have := (List.mem_filter.mp hr).2
      exact of_decide_eq_true this
    · intro r hr hge
      refine List.mem_filter.mpr ⟨hr, ?_⟩
      simp [decide_eq_false (Nat.not_lt.mpr hge)]
    · intro hcontra
      cases hcontra

/-- C1 (confirmed): the POST is treated as acknowledged exactly when the
modem dialogue succeeds end to end and the action result carries HTTP
status 200 (`1,200`); when it is acknowledged and the batch is nonempty,
the single update transaction sets `sent_to_cloud = 1` for exactly the
rows whose id was in the batch — every batched row is marked, every row
whose id was not in the batch is kept untouched, and no row is created or
dropped; when the upload is not acknowledged (non-200 status, timeout or
dialogue failure), the table is completely unchanged. -/
theorem C1_ack_marks_exactly_batch (m : ModemEnv) (db : List FatigueRow) :
    (httpPostPayload m = true ↔
      (m.creg_registered = true ∧ m.data_ack = true ∧ m.action_ok = true ∧
       strHasSub m.action_response "1,200" = true)) ∧
    (httpPostPayload m = false → (forwardDataToCloud m db).1 = db) ∧
    (httpPostPayload m = true → (selectUnsent db).isEmpty = false →
      ((forwardDataToCloud m db).2 = UploadOutcome.succeeded ∧
       (∀ r ∈ db,
          ((selectUnsent db).map (fun x => x.log_id)).contains r.log_id = true →
          { r with sent_to_cloud := 1 } ∈ (forwardDataToCloud m db).1) ∧
       (∀ r ∈ db,
          ((selectUnsent db).map (fun x => x.log_id)).contains r.log_id = false →
          r ∈ (forwardDataToCloud m db).1) ∧
       (forwardDataToCloud m db).1.length = db.length)) := by
  refine ⟨?_, ?_, ?_⟩
  · cases hr : m.creg_registered <;> cases ha : m.data_ack <;>
      cases ho : m.action_ok <;> simp [httpPostPayload, hr, ha, ho]
  · intro hpost
    by_cases hemp : (selectUnsent db).isEmpty <;>
      simp [forwardDataToCloud, hemp, hpost]
  · intro hpost hemp
    have hfwd : (forwardDataToCloud m db)
        = (db.map (fun r =>
            if ((selectUnsent db).map (fun x => x.log_id)).contains r.log_id
            then { r with sent_to_cloud := 1 } else r),
           UploadOutcome.succeeded) := by
      simp only [forwardDataToCloud, hemp, Bool.false_eq_true, if_false, hpost,
        if_true]
    rw [hfwd]
    refine ⟨rfl, ?_, ?_, by simp⟩
    · intro r hr hin
      refine List.mem_map.mpr ⟨r, hr, ?_⟩
      show (if ((selectUnsent db).map (fun x => x.log_id)).contains r.log_id
            then { r with sent_to_cloud := 1 } else r)
          = { r with sent_to_cloud := 1 }
      rw [hin]
      simp
    · intro r hr hout
      refine List.mem_map.mpr ⟨r, hr, ?_⟩
      show (if ((selectUnsent db).map (fun x => x.log_id)).contains r.log_id
            then { r with sent_to_cloud := 1 } else r)
          = r
      rw [hout]
      simp

/-- C9 (confirmed): the cloud upload is attempted on an iteration exactly
when more than 900 seconds (15 minutes) have elapsed since the recorded
last upload; an attempt selects at most 50 rows, all with
`sent_to_cloud = 0` and all from the table, in row-id order whenever the
table is in row-id order; when no unsent row exists the upload is skipped
with the table unchanged; and when not due nothing at all happens. -/
theorem C9_batch_selection_and_period (m : ModemEnv) (now after : Int)
    (st : CommState) :
    (cloudDue now st.lastUpload = true ↔ 900 < now - st.lastUpload) ∧
    (cloudDue now st.lastUpload = false →
      commCloudStep m now after st = (st, UploadOutcome.notDue)) ∧
    (selectUnsent st.db).length ≤ 50 ∧
    (∀ r ∈ selectUnsent st.db, r.sent_to_cloud = 0 ∧ r ∈ st.db) ∧
    ((st.db.map (fun r => r.log_id)).Pairwise (· < ·) →
      ((selectUnsent st.db).map (fun r => r.log_id)).Pairwise (· < ·)) ∧
    (cloudDue now st.lastUpload = true → (selectUnsent st.db).isEmpty = true →
      commCloudStep m now after st
        = ({ lastUpload := after, db := st.db }, UploadOutcome.skipped)) ∧
    (cloudDue now st.lastUpload = true →
      commCloudStep m now after st
        = ({ lastUpload := after, db := (forwardDataToCloud m st.db).1 },
           (forwardDataToCloud m st.db).2)) := by
  have hsub : List.Sublist (selectUnsent st.db) st.db :=
    (List.take_sublist _ _).trans (List.filter_sublist _)
  refine ⟨by simp [cloudDue], ?_, List.length_take_le _ _, ?_, ?_, ?_, ?_⟩
  · intro hdue
    simp [commCloudStep, hdue]
  · intro r hr
    have hf := List.mem_of_mem_take hr
    have := List.mem_filter.mp hf
    exact ⟨by simpa using this.2, this.1⟩
  · intro hord
    exact List.Pairwise.sublist (hsub.map (fun r => r.log_id)) hord
  · intro hdue hemp
    simp [commCloudStep, hdue, forwardDataToCloud, hemp]
  · intro hdue
    simp [commCloudStep, hdue]

/-- One rule-loop step, restated through the firing predicate. -/
theorem alertStep_eq (node : Nat) (d : LoRaData) (q : AlertQueue) (r : Rule) :
    alertStep node d q r
      = if ruleFires node d r then putNowait q (renderFor node d r) else q := by
  by_cases hn : r.node_id = node
  · cases hl : binLookup d r.field_to_monitor with
    | none => simp [alertStep, ruleFires, renderFor, hn, hl]
    | some v =>
        by_cases hv : r.threshold < v <;>
          simp [alertStep, ruleFires, renderFor, hn, hl, hv]
  · simp [alertStep, ruleFires, hn]

/-- C7 (confirmed): provided the alert queue has room for them, the
messages enqueued for a committed packet are exactly the rendered
messages of the rules that fire, in rule order — and a rule fires if and
only if its node identifier equals the packet's node identifier and the
monitored field's value is strictly greater than the rule's threshold;
in particular a value equal to the threshold produces no alert. -/
theorem C7_alert_iff_strictly_above (rules : List Rule) (node : Nat)
    (d : LoRaData) (q : AlertQueue)
    (hroom : q.msgs.length + (rules.filter (ruleFires node d)).length ≤ q.cap) :
    (checkAlertingRules rules node d q).msgs
      = q.msgs ++ (rules.filter (ruleFires node d)).map (renderFor node d) ∧
    (∀ r ∈ rules, ruleFires node d r = true ↔
      (r.node_id = node ∧
       ∃ v, binLookup d r.field_to_monitor = some v ∧ r.threshold < v)) := by
  constructor
  · induction rules generalizing q with
    | nil => simp [checkAlertingRules]
    | cons r rs ih =>
        by_cases hf : ruleFires node d r
        · have hfil : (r :: rs).filter (ruleFires node d)
              = r :: rs.filter (ruleFires node d) := by
            simp [List.filter_cons, hf]
          rw [hfil] at hroom
          have hlt : q.msgs.length < q.cap := by
            simp only [List.length_cons] at hroom
            omega
          have hput : (putNowait q (renderFor node d r)).msgs
              = q.msgs ++ [renderFor node d r] := by
            simp [putNowait, hlt]
          have hstep : checkAlertingRules (r :: rs) node d q
              = checkAlertingRules rs node d (putNowait q (renderFor node d r)) := by
            simp [checkAlertingRules, alertStep_eq, hf]
          rw [hstep, hfil]
          have hroom2 : (putNowait q (renderFor node d r)).msgs.length +
              (rs.filter (ruleFires node d)).length ≤
              (putNowait q (renderFor node d r)).cap := by
            simp only [hput, List.length_append, List.length_singleton, putNowait]
            simp only [List.length_cons] at hroom
            split <;> simp <;> omega
          rw [ih _ hroom2, hput]
          simp [putNowait]
        · have hfil : (r :: rs).filter (ruleFires node d)
              = rs.filter (ruleFires node d) := by
            simp [List.filter_cons, hf]
          rw [hfil] at hroom
          have hstep : checkAlertingRules (r :: rs) node d q
              = checkAlertingRules rs node d q := by
            simp [checkAlertingRules, alertStep_eq, hf]
          rw [hstep, hfil]
          exact ih q hroom
  · intro r _
    constructor
    · intro hf
      by_cases hn : r.node_id = node
      · cases hl : binLookup d r.field_to_monitor with
        | none => simp [ruleFires, hn, hl] at hf
        | some v =>
            refine ⟨hn, v, rfl, ?_⟩
            simpa [ruleFires, hn, hl] using hf
      · simp [ruleFires, hn] at hf
    · rintro ⟨hn, v, hl, hv⟩
      simp [ruleFires, hn, hl, hv]

/-- The spec's end-to-end scenario 2: node 1, bins (5, 10, 20), one rule
monitoring `bin_3_cycles` with threshold 15. -/
def scenarioRules : List Rule :=
  [{ node_id := 1, field_to_monitor := "bin_3_cycles", threshold := 15,
     alert_message := "N{node} val{value} thr{threshold}" }]

def scenarioData : LoRaData :=
  { node_id := 1, tag := 255, bin1 := 5, bin2 := 10, bin3 := 20 }

/-- Witness for C7 at the spec's scenario-2 input: an empty queue of
capacity 50 receives exactly the one rendered alert of the one firing
rule. -/
theorem C7_alert_iff_strictly_above_witness :
    (checkAlertingRules scenarioRules 1 scenarioData ⟨[], 50⟩).msgs
      = [] ++ (scenarioRules.filter (ruleFires 1 scenarioData)).map
          (renderFor 1 scenarioData) ∧
    (∀ r ∈ scenarioRules, ruleFires 1 scenarioData r = true ↔
      (r.node_id = 1 ∧
       ∃ v, binLookup scenarioData r.field_to_monitor = some v ∧
         r.threshold < v)) :=
  C7_alert_iff_strictly_above scenarioRules 1 scenarioData ⟨[], 50⟩ (by decide)

/-- C2 counterexample: with two low packets queued at instant 0 and a
high packet (9) arriving at instant 2 — while low packet 8 is still
queued mid-drain — the processor services low packet 8 before high
packet 9, because the inner low-priority `while` loop never re-checks
the high queue: the mid-drain arrival is not serviced "before the next
low-priority item" as the claim states. -/
theorem C2_counterexample :
    arrMidDrain 2 = ([9], []) ∧
    schedRun arrMidDrain 8 0 ⟨SchedMode.drainingHigh, [], []⟩
      = [SchedEv.lo 7, SchedEv.lo 8, SchedEv.hi 9] := by
  exact ⟨rfl, rfl⟩

/-- Unfolding one high-drain step of the loop. -/
theorem schedRun_cons_high (arr : Nat → List Nat × List Nat) (fuel t h0 : Nat)
    (hs lq : List Nat) :
    schedRun arr (fuel + 1) t ⟨SchedMode.drainingHigh, h0 :: hs, lq⟩
      = SchedEv.hi h0 ::
          schedRun arr fuel (t + 1)
            ⟨SchedMode.drainingHigh, hs ++ (arr t).1, lq ++ (arr t).2⟩ := by
  rfl

/-- C2 (amended): on each iteration the processor drains the high-priority
queue to empty before consuming any low-priority item, and a high-priority
packet that arrives while the low-priority queue is being drained is
serviced at the next iteration boundary — after the remaining items of the
current low drain, but before any low-priority item consumed from the
boundary on: from any state at an iteration boundary (about to drain
high), every queued high packet is processed strictly before every
subsequently processed low packet, whatever arrives later. -/
theorem C2_amended_high_before_low (arr : Nat → List Nat × List Nat)
    (fuel t : Nat) (hq lq : List Nat) (h : Nat) (hmem : h ∈ hq) (i p : Nat)
    (hlow : (schedRun arr fuel t ⟨SchedMode.drainingHigh, hq, lq⟩)[i]?
      = some (SchedEv.lo p)) :
    ∃ j, j < i ∧
      (schedRun arr fuel t ⟨SchedMode.drainingHigh, hq, lq⟩)[j]?
        = some (SchedEv.hi h) := by
  induction fuel generalizing t hq lq i with
  | zero => simp [schedRun] at hlow
  | succ fuel ih =>
      cases hq with
      | nil => cases hmem
      | cons h0 hs =>
          rw [schedRun_cons_high] at hlow ⊢
          cases i with
          | zero => simp at hlow
          | succ i =>
              rw [List.getElem?_cons_succ] at hlow
              rcases List.mem_cons.mp hmem with rfl | hmem2
              · exact ⟨0, Nat.succ_pos _, by simp⟩
              · obtain ⟨j, hj, hget⟩ :=
                  ih (t + 1) (hs ++ (arr t).1) (lq ++ (arr t).2)
                    (List.mem_append_left _ hmem2) i hlow
                exact ⟨j + 1, Nat.succ_lt_succ hj, by
                  rw [List.getElem?_cons_succ]; exact hget⟩

/-- A quiescent arrival schedule. -/
def arrQuiet : Nat → List Nat × List Nat := fun _ => ([], [])

/-- Witness for the amended C2 at a concrete boundary state: high packet 5
queued together with low packet 6 — the run serves the low packet at
index 1, and the theorem produces the high packet strictly earlier. -/
theorem C2_amended_high_before_low_witness :
    ∃ j, j < 1 ∧
      (schedRun arrQuiet 3 0 ⟨SchedMode.drainingHigh, [5], [6]⟩)[j]?
        = some (SchedEv.hi 5) :=
  C2_amended_high_before_low arrQuiet 3 0 [5] [6] 5 (by simp) 1 6 (by rfl)

/-- C10 counterexample: in the plain LoRa iteration (already set up,
packet pending, queue not full) the enqueue is the third event of the
trace, strictly before the bus release — the worker still holds bus
exclusivity at the enqueue, refuting "enqueued only after the ingestor
has exited the bus acquisition scope". -/
theorem C10_counterexample :
    loraIterTrace false true true false
      = [RadioEv.acquireBus, RadioEv.readPacket, RadioEv.enqueuePacket,
         RadioEv.rearmRx, RadioEv.releaseBus] ∧
    (loraIterTrace false true true false)[2]? = some RadioEv.enqueuePacket ∧
    busHeldAfter ((loraIterTrace false true true false).take 2) = true := by
  decide

/-- Events that neither acquire nor release the bus leave the
exclusivity flag unchanged. -/
theorem foldl_busStep_const :
    ∀ (evs : List RadioEv) (b : Bool), RadioEv.acquireBus ∉ evs →
      RadioEv.releaseBus ∉ evs → evs.foldl busStep b = b
  | [], _, _, _ => rfl
  | e :: es, b, h1, h2 => by
      have hb : busStep b e = b := by
        cases e with
        | acquireBus => exact absurd (List.mem_cons_self _ _) h1
        | releaseBus => exact absurd (List.mem_cons_self _ _) h2
        | setupRadio ok => rfl
        | readPacket => rfl
        | enqueuePacket => rfl
        | dropPacket => rfl
        | sleepRetry => rfl
        | rearmRx => rfl
      rw [List.foldl_cons, hb]
      exact foldl_busStep_const es b
        (fun hm => h1 (List.mem_cons_of_mem _ hm))
        (fun hm => h2 (List.mem_cons_of_mem _ hm))

/-- Any scope-shaped trace — bus acquired first, released last, with a
body that neither acquires nor releases — holds the bus at every enqueue
and ends with the bus released. -/
theorem scoped_trace_held (body : List RadioEv)
    (hacq : RadioEv.acquireBus ∉ body) (hrel : RadioEv.releaseBus ∉ body) :
    (∀ i, (RadioEv.acquireBus :: body ++ [RadioEv.releaseBus])[i]?
        = some RadioEv.enqueuePacket →
      busHeldAfter ((RadioEv.acquireBus :: body ++ [RadioEv.releaseBus]).take i)
        = true) ∧
    busHeldAfter (RadioEv.acquireBus :: body ++ [RadioEv.releaseBus]) = false ∧
    (RadioEv.acquireBus :: body ++ [RadioEv.releaseBus]).getLast?
      = some RadioEv.releaseBus := by
  refine ⟨?_, ?_, ?_⟩
  · intro i hi
    cases i with
    | zero => simp at hi
    | succ k =>
        have hk : k < body.length := by
          by_contra hge
          have hlen : (RadioEv.acquireBus :: body).length ≤ k + 1 := by
            simp
            omega
          rw [List.getElem?_append_right hlen] at hi
          rcases Nat.lt_or_ge (k + 1 - (RadioEv.acquireBus :: body).length) 1
            with hz | ho
          · have hz0 : k + 1 - (RadioEv.acquireBus :: body).length = 0 :=
              Nat.lt_one_iff.mp hz
            rw [hz0] at hi
            cases hi
          · rw [List.getElem?_eq_none (by simpa using ho)] at hi
            cases hi
        have htake : ((RadioEv.acquireBus :: body) ++ [RadioEv.releaseBus]).take (k + 1)
            = RadioEv.acquireBus :: body.take k := by
          rw [List.take_append_eq_append_take]
          have hz0 : k + 1 - (RadioEv.acquireBus :: body).length = 0 := by
            simp
            omega
          rw [hz0]
          simp [List.take_succ_cons]
        rw [htake]
        show (body.take k).foldl busStep (busStep false RadioEv.acquireBus) = true
        exact foldl_busStep_const _ _
          (fun hm => hacq (List.take_subset _ _ hm))
          (fun hm => hrel (List.take_subset _ _ hm))
  · show ((RadioEv.acquireBus :: body) ++ [RadioEv.releaseBus]).foldl busStep false
        = false
    rw [List.foldl_append]
    rfl
  · exact List.getLast?_concat _

/-- The LoRa scope body never touches the bus lock itself. -/
theorem loraScopeBody_no_lock (needSetup setupOk rxDone qFull : Bool) :
    RadioEv.acquireBus ∉ loraScopeBody needSetup setupOk rxDone qFull ∧
    RadioEv.releaseBus ∉ loraScopeBody needSetup setupOk rxDone qFull := by
  cases needSetup <;> cases setupOk <;> cases rxDone <;> cases qFull <;> decide

/-- The nRF scope body never touches the bus lock itself. -/
theorem nrfScopeBody_no_lock (needSetup setupOk : Bool) (qFulls : List Bool) :
    RadioEv.acquireBus ∉ nrfScopeBody needSetup setupOk qFulls ∧
    RadioEv.releaseBus ∉ nrfScopeBody needSetup setupOk qFulls := by
  have hdrain : ∀ e ∈ (qFulls.map (fun f =>
      [RadioEv.readPacket,
       if f then RadioEv.dropPacket else RadioEv.enqueuePacket])).flatten,
      e ≠ RadioEv.acquireBus ∧ e ≠ RadioEv.releaseBus := by
    intro e he
    rw [List.mem_flatten] at he
    obtain ⟨l, hl, hel⟩ := he
    rw [List.mem_map] at hl
    obtain ⟨f, _, rfl⟩ := hl
    cases f <;> simp at hel <;> rcases hel with rfl | rfl <;>
      exact ⟨by decide, by decide⟩
  cases needSetup <;> cases setupOk <;>
    simp only [nrfScopeBody] <;>
    constructor <;>
    intro hmem <;>
    first
      | exact absurd rfl (hdrain _ (by simpa using hmem)).1
      | exact absurd rfl (hdrain _ (by simpa using hmem)).2

/-- C10 (amended): in both ingestors the received payload is enqueued
while the worker still holds bus exclusivity — every enqueue event of an
iteration trace happens with the bus held, strictly inside the
acquisition scope — and the bus is always released by the end of the
iteration, whose last event is the release; when a packet is read and
the queue is not full, the enqueue does occur. -/
theorem C10_amended_enqueue_inside_scope (needSetup setupOk rxDone qFull : Bool)
    (qFulls : List Bool) :
    (∀ i, (loraIterTrace needSetup setupOk rxDone qFull)[i]?
        = some RadioEv.enqueuePacket →
      busHeldAfter ((loraIterTrace needSetup setupOk rxDone qFull).take i)
        = true) ∧
    busHeldAfter (loraIterTrace needSetup setupOk rxDone qFull) = false ∧
    (loraIterTrace needSetup setupOk rxDone qFull).getLast?
      = some RadioEv.releaseBus ∧
    (rxDone = true → qFull = false → (needSetup = false ∨ setupOk = true) →
      RadioEv.enqueuePacket ∈ loraIterTrace needSetup setupOk rxDone qFull) ∧
    (∀ i, (nrfIterTrace needSetup setupOk qFulls)[i]?
        = some RadioEv.enqueuePacket →
      busHeldAfter ((nrfIterTrace needSetup setupOk qFulls).take i) = true) ∧
    busHeldAfter (nrfIterTrace needSetup setupOk qFulls) = false ∧
    (nrfIterTrace needSetup setupOk qFulls).getLast?
      = some RadioEv.releaseBus ∧
    (false ∈ qFulls → (needSetup = false ∨ setupOk = true) →
      RadioEv.enqueuePacket ∈ nrfIterTrace needSetup setupOk qFulls) := by
  obtain ⟨hla, hlr⟩ := loraScopeBody_no_lock needSetup setupOk rxDone qFull
  obtain ⟨hna, hnr⟩ := nrfScopeBody_no_lock needSetup setupOk qFulls
  obtain ⟨hl1, hl2, hl3⟩ := scoped_trace_held _ hla hlr
  obtain ⟨hn1, hn2, hn3⟩ := scoped_trace_held _ hna hnr
  refine ⟨hl1, hl2, hl3, ?_, hn1, hn2, hn3, ?_⟩
  · intro hrx hqf hsetup
    subst hrx
    subst hqf
    rcases hsetup with hns | hok
    · subst hns
      cases setupOk <;> decide
    · subst hok
      cases needSetup <;> decide
  · intro hf hsetup
    have hmem : RadioEv.enqueuePacket ∈ nrfScopeBody needSetup setupOk qFulls := by
      have hdr : RadioEv.enqueuePacket ∈ (qFulls.map (fun f =>
          [RadioEv.readPacket,
           if f then RadioEv.dropPacket else RadioEv.enqueuePacket])).flatten := by
        rw [List.mem_flatten]
        exact ⟨[RadioEv.readPacket, RadioEv.enqueuePacket],
          List.mem_map.mpr ⟨false, hf, by simp⟩, by simp⟩
      rcases hsetup with hns | hok
      · subst hns
        simpa [nrfScopeBody] using hdr
      · subst hok
        cases needSetup <;> simpa [nrfScopeBody] using hdr
    show RadioEv.enqueuePacket ∈
      RadioEv.acquireBus :: nrfScopeBody needSetup setupOk qFulls ++
        [RadioEv.releaseBus]
    exact List.mem_append.mpr (Or.inl (List.mem_cons_of_mem _ hmem))

end KalpaSETU
